import Mathlib

/-
  Verification of the real-time voice session core of the ThaiGuide
  itinerary planner (the LiveSession component and its audio codec
  helpers).  Pure TypeScript functions are embedded as Lean functions;
  the stateful React component (refs + callbacks) is embedded as a
  record of its mutable refs together with pure transition functions,
  one per callback, applied along serialized event sequences as the
  source's single-threaded event-loop model prescribes.
-/

namespace ThaiGuide

/-! ## Codec layer (services/audioUtils.ts) -/

/-- Modelled from the spec: the base64 alphabet used by the transport
encoding `encodeBase64` / `decodeBase64` of `services/audioUtils.ts`,
whose source file is not part of the repository snapshot; the spec
specifies "standard base64 semantics". -/
def b64Alphabet : List Char :=
  ['A','B','C','D','E','F','G','H','I','J','K','L','M','N','O','P',
   'Q','R','S','T','U','V','W','X','Y','Z',
   'a','b','c','d','e','f','g','h','i','j','k','l','m','n','o','p',
   'q','r','s','t','u','v','w','x','y','z',
   '0','1','2','3','4','5','6','7','8','9','+','/']

/-- Modelled from the spec: map a 6-bit value to its base64 character. -/
def sextetChar (n : Nat) : Char := b64Alphabet.getD n 'A'

/-- Modelled from the spec: map a base64 character back to its 6-bit
value, `none` on a character outside the alphabet. -/
def charSextet (c : Char) : Option Nat :=
  if c ∈ b64Alphabet then some (b64Alphabet.indexOf c) else none

/-- Modelled from the spec: `encodeBase64` of `services/audioUtils.ts`
(`toTransportText`): standard base64 of a byte list, 3 bytes to 4
characters, padded with `=`. -/
def encodeBase64 : List Nat → List Char
  | [] => []
  | [a] => [sextetChar (a / 4), sextetChar (a % 4 * 16), '=', '=']
  | [a, b] => [sextetChar (a / 4), sextetChar (a % 4 * 16 + b / 16),
               sextetChar (b % 16 * 4), '=']
  | a :: b :: c :: rest =>
      sextetChar (a / 4) :: sextetChar (a % 4 * 16 + b / 16) ::
      sextetChar (b % 16 * 4 + c / 64) :: sextetChar (c % 64) ::
      encodeBase64 rest

/-- Modelled from the spec: `decodeBase64` of `services/audioUtils.ts`
(`fromTransportText`): inverse of `encodeBase64`, `none` on text that is
not well-formed base64. -/
def decodeBase64 : List Char → Option (List Nat)
  | [] => some []
  | w :: x :: y :: z :: rest =>
      if y = '=' then
        if z = '=' ∧ rest = [] then
          match charSextet w, charSextet x with
          | some a, some b => some [a * 4 + b / 16]
          | _, _ => none
        else none
      else if z = '=' then
        if rest = [] then
          match charSextet w, charSextet x, charSextet y with
          | some a, some b, some c =>
              some [a * 4 + b / 16, b % 16 * 16 + c / 4]
          | _, _, _ => none
        else none
      else
        match charSextet w, charSextet x, charSextet y, charSextet z,
              decodeBase64 rest with
        | some a, some b, some c, some d, some bs =>
            some ((a * 4 + b / 16) :: (b % 16 * 16 + c / 4) ::
                  (c % 4 * 64 + d) :: bs)
        | _, _, _, _, _ => none
  | _ => none

end ThaiGuide

namespace ThaiGuide

lemma charSextet_sextetChar {n : Nat} (h : n < 64) :
    charSextet (sextetChar n) = some n := by
  interval_cases n <;> rfl

lemma sextetChar_ne_eq (n : Nat) : sextetChar n ≠ '=' := by
  by_cases h : n < 64
  · interval_cases n <;> decide
  · unfold sextetChar
    rw [List.getD_eq_default]
    · decide
    · simpa [b64Alphabet] using Nat.le_of_not_lt h

/-- Base64 round trip on valid byte lists. -/
lemma decodeBase64_encodeBase64 (bytes : List Nat)
    (hb : ∀ x ∈ bytes, x < 256) :
    decodeBase64 (encodeBase64 bytes) = some bytes := by
  induction bytes using encodeBase64.induct with
  | case1 => rfl
  | case2 a =>
      have ha : a < 256 := hb a (by simp)
      rw [encodeBase64, decodeBase64]
      have h1 : a / 4 < 64 := by omega
      have h2 : a % 4 * 16 < 64 := by omega
      rw [if_pos rfl, if_pos ⟨rfl, rfl⟩, charSextet_sextetChar h1,
          charSextet_sextetChar h2]
      simp only [Option.some.injEq, List.cons.injEq, and_true]
      omega
  | case3 a b =>
      have ha : a < 256 := hb a (by simp)
      have hbb : b < 256 := hb b (by simp)
      rw [encodeBase64, decodeBase64]
      have h1 : a / 4 < 64 := by omega
      have h2 : a % 4 * 16 + b / 16 < 64 := by omega
      have h3 : b % 16 * 4 < 64 := by omega
      rw [if_neg (sextetChar_ne_eq _), if_pos rfl, if_pos rfl,
          charSextet_sextetChar h1, charSextet_sextetChar h2,
          charSextet_sextetChar h3]
      simp only [Option.some.injEq, List.cons.injEq, and_true]
      omega
  | case4 a b c rest ih =>
      have ha : a < 256 := hb a (by simp)
      have hbb : b < 256 := hb b (by simp)
      have hc : c < 256 := hb c (by simp)
      have hrest : ∀ x ∈ rest, x < 256 := fun x hx => hb x (by simp [hx])
      rw [encodeBase64, decodeBase64]
      have h1 : a / 4 < 64 := by omega
      have h2 : a % 4 * 16 + b / 16 < 64 := by omega
      have h3 : b % 16 * 4 + c / 64 < 64 := by omega
      have h4 : c % 64 < 64 := by omega
      rw [if_neg (sextetChar_ne_eq _), if_neg (sextetChar_ne_eq _),
          charSextet_sextetChar h1, charSextet_sextetChar h2,
          charSextet_sextetChar h3, charSextet_sextetChar h4, ih hrest]
      simp only [Option.some.injEq, List.cons.injEq, and_true]
      omega

end ThaiGuide

namespace ThaiGuide

/-! ## PCM16 codec (services/audioUtils.ts) -/

/-- Modelled from the spec: the per-sample core of `float32ToPCM16` of
`services/audioUtils.ts`, whose source file is not in the repository
snapshot: "linearly maps each float sample to a signed 16-bit integer
(clamped to the representable range; out-of-range inputs are clamped,
not rejected)".  Samples are embedded as rationals. -/
def pcm16OfSample (s : ℚ) : ℤ :=
  max (-32768) (min 32767 ⌊s * 32768⌋)

/-- Modelled from the spec: little-endian serialization of one 16-bit
sample ("serialized little-endian"), as the two bytes of the sample's
two's-complement representation. -/
def sampleBytes (s : ℚ) : List Nat :=
  let u := (pcm16OfSample s % 65536).toNat
  [u % 256, u / 256]

/-- Modelled from the spec: `float32ToPCM16` of `services/audioUtils.ts`
(the spec's `encodeSamples`): every sample of the frame encoded to two
little-endian bytes. -/
def float32ToPCM16 (frame : List ℚ) : List Nat :=
  frame.flatMap sampleBytes

/-- Modelled from the spec: read one signed little-endian 16-bit sample
from two bytes. -/
def int16OfLE (b0 b1 : Nat) : ℤ :=
  let v := b0 + 256 * b1
  if 32768 ≤ v then (v : ℤ) - 65536 else (v : ℤ)

/-- Modelled from the spec: the sample loop of `decodeAudioData`:
consecutive byte pairs become normalized floating-point samples. -/
def pcmBytesToSamples : List Nat → List ℚ
  | b0 :: b1 :: rest => (int16OfLE b0 b1 : ℚ) / 32768 :: pcmBytesToSamples rest
  | _ => []

/-- Modelled from the spec: `decodeAudioData` of
`services/audioUtils.ts` (the spec's `decodeToPlayable`): "interprets
the byte stream as signed little-endian 16-bit samples ..., converts to
normalized floating point"; "Fails with `DecodeError` if byte length is
not a multiple of `2 × channelCount`" — failure embedded as `none`.
The output-clock binding of the source's `AudioBuffer` is immaterial to
the sample values and omitted; the sample rate only fixes the buffer's
duration, computed at the call site. -/
def decodeAudioData (bytes : List Nat) (_sampleRate channels : Nat) :
    Option (List ℚ) :=
  if bytes.length % (2 * channels) = 0 then some (pcmBytesToSamples bytes)
  else none

end ThaiGuide

namespace ThaiGuide

lemma pcm16OfSample_range (s : ℚ) :
    -32768 ≤ pcm16OfSample s ∧ pcm16OfSample s ≤ 32767 := by
  unfold pcm16OfSample
  constructor
  · exact le_max_left _ _
  · exact max_le (by norm_num) (min_le_left _ _)

lemma sampleBytes_eq (s : ℚ) :
    sampleBytes s = [(pcm16OfSample s % 65536).toNat % 256,
                     (pcm16OfSample s % 65536).toNat / 256] := rfl

lemma sampleBytes_valid (s : ℚ) : ∀ x ∈ sampleBytes s, x < 256 := by
  have h := pcm16OfSample_range s
  rw [sampleBytes_eq]
  intro x hx
  have hu : (pcm16OfSample s % 65536).toNat < 65536 := by omega
  simp only [List.mem_cons, List.not_mem_nil, or_false] at hx
  rcases hx with h1 | h1 <;> omega

lemma int16OfLE_sampleBytes (s : ℚ) :
    int16OfLE ((pcm16OfSample s % 65536).toNat % 256)
              ((pcm16OfSample s % 65536).toNat / 256) = pcm16OfSample s := by
  have h := pcm16OfSample_range s
  unfold int16OfLE
  dsimp only
  split <;> omega

lemma pcmBytesToSamples_float32ToPCM16 (frame : List ℚ) :
    pcmBytesToSamples (float32ToPCM16 frame)
      = frame.map (fun s => (pcm16OfSample s : ℚ) / 32768) := by
  induction frame with
  | nil => rfl
  | cons s rest ih =>
      unfold float32ToPCM16 at ih ⊢
      rw [List.flatMap_cons, sampleBytes_eq, List.cons_append,
          List.cons_append, List.nil_append, pcmBytesToSamples,
          int16OfLE_sampleBytes, ih, List.map_cons]

lemma float32ToPCM16_length (frame : List ℚ) :
    (float32ToPCM16 frame).length = 2 * frame.length := by
  induction frame with
  | nil => rfl
  | cons s rest ih =>
      unfold float32ToPCM16 at ih ⊢
      rw [List.flatMap_cons, List.length_append, ih, sampleBytes_eq]
      simp only [List.length_cons, List.length_nil, List.length_map]
      omega

lemma float32ToPCM16_valid (frame : List ℚ) :
    ∀ x ∈ float32ToPCM16 frame, x < 256 := by
  intro x hx
  unfold float32ToPCM16 at hx
  rw [List.mem_flatMap] at hx
  obtain ⟨s, _, hmem⟩ := hx
  exact sampleBytes_valid s x hmem

/-- The quantization bound for a single in-range sample. -/
lemma pcm16_quant_bound (s : ℚ) (h1 : -1 ≤ s) (h2 : s ≤ 1) :
    |(pcm16OfSample s : ℚ) / 32768 - s| ≤ 1 / 32768 := by
  unfold pcm16OfSample
  have hfl : ((⌊s * 32768⌋ : ℤ) : ℚ) ≤ s * 32768 := Int.floor_le _
  have hfg : s * 32768 - 1 < ((⌊s * 32768⌋ : ℤ) : ℚ) :=
    Int.sub_one_lt_floor _
  have hxlb : (-32768 : ℚ) ≤ s * 32768 := by linarith
  have hl : (-32768 : ℤ) ≤ ⌊s * 32768⌋ := by
    rw [Int.le_floor]; push_cast; linarith
  rcases le_or_lt (⌊s * 32768⌋) 32767 with hle | hgt
  · rw [min_eq_right hle, max_eq_right hl, abs_le]
    constructor <;> linarith
  · have h38 : (32768 : ℚ) ≤ ((⌊s * 32768⌋ : ℤ) : ℚ) := by
      have : (32768 : ℤ) ≤ ⌊s * 32768⌋ := hgt
      exact_mod_cast this
    have hxge : (32768 : ℚ) ≤ s * 32768 := le_trans h38 hfl
    rw [min_eq_left (by omega), max_eq_right (by norm_num), abs_le]
    constructor <;> [push_cast; push_cast] <;> linarith

end ThaiGuide


namespace ThaiGuide

/-- C8: transport-encoding round trip — for every byte sequence `b` of
even length with all entries valid bytes,
`decodeBase64 (encodeBase64 b) = some b`: the text-safe binary transport
encoding is left-invertible. -/
theorem transport_encoding_roundtrip (b : List Nat)
    (hlen : b.length % 2 = 0) (hb : ∀ x ∈ b, x < 256) :
    decodeBase64 (encodeBase64 b) = some b :=
  decodeBase64_encodeBase64 b hb

theorem transport_encoding_roundtrip_witness :
    [7, 200, 255, 0].length % 2 = 0 ∧ (∀ x ∈ [7, 200, 255, 0], x < 256) ∧
      decodeBase64 (encodeBase64 [7, 200, 255, 0]) = some [7, 200, 255, 0] :=
  ⟨by decide, by decide,
   transport_encoding_roundtrip [7, 200, 255, 0] (by decide) (by decide)⟩

/-- C9: codec quantization bound — every sample in `[-1, 1]` survives
the full codec pipeline (`float32ToPCM16`, base64 transport encoding
and decoding, `decodeAudioData`) to within `1/32768` of its original
value, and `pcm16OfSample` clamps every input, in range or not, into
the representable signed 16-bit range. -/
theorem codec_quantization_bound (frame : List ℚ)
    (h : ∀ s ∈ frame, -1 ≤ s ∧ s ≤ 1) :
    (∀ s : ℚ, -32768 ≤ pcm16OfSample s ∧ pcm16OfSample s ≤ 32767) ∧
    ∃ out,
      (decodeBase64 (encodeBase64 (float32ToPCM16 frame))).bind
          (fun bytes => decodeAudioData bytes 24000 1) = some out ∧
      List.Forall₂ (fun o s => |o - s| ≤ 1 / 32768) out frame := by
  refine ⟨pcm16OfSample_range, ?_⟩
  refine ⟨frame.map (fun s => (pcm16OfSample s : ℚ) / 32768), ?_, ?_⟩
  · rw [decodeBase64_encodeBase64 _ (float32ToPCM16_valid frame),
        Option.some_bind]
    unfold decodeAudioData
    rw [if_pos (by rw [float32ToPCM16_length]; omega),
        pcmBytesToSamples_float32ToPCM16]
  · rw [List.forall₂_map_left_iff, List.forall₂_same]
    intro s hs
    exact pcm16_quant_bound s (h s hs).1 (h s hs).2

theorem codec_quantization_bound_witness :
    (∀ s ∈ [(1 : ℚ), -1, 1/2, -3/10], -1 ≤ s ∧ s ≤ 1) ∧
    ((∀ s : ℚ, -32768 ≤ pcm16OfSample s ∧ pcm16OfSample s ≤ 32767) ∧
     ∃ out,
       (decodeBase64 (encodeBase64 (float32ToPCM16 [(1 : ℚ), -1, 1/2, -3/10]))).bind
           (fun bytes => decodeAudioData bytes 24000 1) = some out ∧
       List.Forall₂ (fun o s => |o - s| ≤ 1 / 32768) out
         [(1 : ℚ), -1, 1/2, -3/10]) :=
  ⟨by norm_num,
   codec_quantization_bound [(1 : ℚ), -1, 1/2, -3/10] (by norm_num)⟩

end ThaiGuide

namespace ThaiGuide

/-!  ## The LiveSession controller (src/types.ts lines 278–502)

The component's mutable refs and React state cells become the fields of
`SessionS`; each callback (`cleanup`, `processor.onaudioprocess`, the
channel's `onmessage` / `onopen` / `onclose` / `onerror`, a source's
`onended`) becomes a pure transition function.  Callbacks run on one
serialized event loop, so a session history is a list of events folded
over the state.  -/

inductive Status
  | idle | connecting | connected | error | disconnected
deriving DecidableEq, Repr

/-- An `AudioContext`: its only observable facts here are which
`startSession` call constructed it (`gen`) and whether `close()` has
been requested on it. -/
structure AudioCtx where
  gen : Nat
  closed : Bool
deriving DecidableEq, Repr

/-- The `MediaStream` from `getUserMedia`: which `startSession` call
acquired it, and whether all its tracks have been stopped. -/
structure MediaStream where
  gen : Nat
  tracksStopped : Bool
deriving DecidableEq, Repr

/-- One `LiveServerMessage`'s `serverContent`, with exactly the fields
the handler reads. -/
structure ServerMessage where
  outputTranscription : Option String
  inputTranscription : Option String
  turnComplete : Bool
  audioData : Option (List Char)
  interrupted : Bool
deriving DecidableEq, Repr

/-- The refs and state cells of one `LiveSession` component instance.
`volumeMeanSquare` holds the mean square of the last captured frame:
the source displays `Math.min(Math.sqrt(ms) * 5, 1)`, which is a
monotone function of this field, and the square root has no exact
rational embedding.  `sources` holds the ids of the live
`AudioBufferSourceNode`s (`sourcesRef`), `stopped` the ids on which
`stop()` has been called.  `sessionConn` is `sessionPromiseRef`: the
generation of the `connect` call it resolves to.  `generation` counts
`startSession` calls: resources carrying a larger `gen` than an older
generation number are brand-new instances. -/
@[ext]
structure SessionS where
  status : Status
  mounted : Bool
  isAgentSpeaking : Bool
  volumeMeanSquare : ℚ
  nextStartTime : ℚ
  sources : List Nat
  stopped : List Nat
  nextSourceId : Nat
  inputCtx : Option AudioCtx
  outputCtx : Option AudioCtx
  stream : Option MediaStream
  sessionConn : Option Nat
  closeRequested : Bool
  transcription : String
  currentInputTrans : String
  currentOutputTrans : String
  generation : Nat
deriving DecidableEq, Repr

/-- The component's initial refs and state. -/
def initState : SessionS where
  status := .idle
  mounted := true
  isAgentSpeaking := false
  volumeMeanSquare := 0
  nextStartTime := 0
  sources := []
  stopped := []
  nextSourceId := 0
  inputCtx := none
  outputCtx := none
  stream := none
  sessionConn := none
  closeRequested := false
  transcription := ""
  currentInputTrans := ""
  currentOutputTrans := ""
  generation := 0

/-- `inputContextRef.current?.close()` / `outputContextRef.current?.close()`:
optional chaining is a no-op on `null`; `close()` on an already-closed
context only rejects its returned promise, observable state unchanged. -/
def closeCtx : Option AudioCtx → Option AudioCtx :=
  Option.map (fun c => { c with closed := true })

/-- `streamRef.current?.getTracks().forEach(track => track.stop())`:
stopping a stopped track is a no-op. -/
def stopTracks : Option MediaStream → Option MediaStream :=
  Option.map (fun st => { st with tracksStopped := true })

/-- `cleanup` (src/types.ts 327–351): clears the mounted flag, stops and
clears all live sources (each `stop()` wrapped in try/catch in the
source, hence total here), closes both contexts, stops the stream's
tracks, and requests `session.close()` when a session promise exists
(its rejection swallowed by `.catch(() => {})`). -/
def cleanup (s : SessionS) : SessionS :=
  { s with
    mounted := false
    stopped := s.stopped ++ s.sources
    sources := []
    inputCtx := closeCtx s.inputCtx
    outputCtx := closeCtx s.outputCtx
    stream := stopTracks s.stream
    closeRequested := if s.sessionConn.isSome then true else s.closeRequested }

/-- `processor.onaudioprocess` (src/types.ts 386–408): bail out when
unmounted; otherwise record the frame's volume metric and emit the
PCM16-encoded, base64-wrapped frame, which the session promise then
sends over the channel (fire-and-forget).  The emitted payload is
returned alongside the state. -/
def onaudioprocess (s : SessionS) (frame : List ℚ) :
    SessionS × Option (List Char) :=
  if s.mounted = false then (s, none)
  else
    let meanSquare := (frame.map (fun x => x * x)).sum / (frame.length : ℚ)
    let pcm16 := float32ToPCM16 frame
    let base64Data := encodeBase64 pcm16
    ({ s with volumeMeanSquare := meanSquare }, some base64Data)

/-- The transcription block of `onmessage` (src/types.ts 414–428), in
source order: output delta, then input delta, then turn completion
(which appends the labeled lines for whichever buffers are non-empty —
JS string truthiness — and clears both buffers). -/
def applyTranscription (s : SessionS) (msg : ServerMessage) : SessionS :=
  let s1 := match msg.outputTranscription with
    | some t => { s with currentOutputTrans := s.currentOutputTrans ++ t }
    | none => s
  let s2 := match msg.inputTranscription with
    | some t => { s1 with currentInputTrans := s1.currentInputTrans ++ t }
    | none => s1
  if msg.turnComplete then
    let userText := s2.currentInputTrans
    let modelText := s2.currentOutputTrans
    { s2 with
      transcription := s2.transcription ++
        (if userText = "" then "" else "User: " ++ userText ++ "\n") ++
        (if modelText = "" then "" else "Guide: " ++ modelText ++ "\n")
      currentInputTrans := ""
      currentOutputTrans := "" }
  else s2

/-- The scheduling tail of the audio block of `onmessage`
(src/types.ts 443–457): create a source for the decoded buffer, mark
the agent speaking, start it at the cursor, advance the cursor by the
buffer's duration, and register the handle in the live set.  Returns
the new state and the computed start time. -/
def enqueueChunk (s : SessionS) (now dur : ℚ) : SessionS × ℚ :=
  let startTime := max s.nextStartTime now
  ({ s with
      isAgentSpeaking := true
      sources := s.nextSourceId :: s.sources
      nextSourceId := s.nextSourceId + 1
      nextStartTime := startTime + dur }, startTime)

/-- The interruption block of `onmessage` (src/types.ts 461–468): stop
every live source (try/catch-guarded in the source), clear the live
set, and reset the cursor to 0. -/
def applyInterrupted (s : SessionS) (msg : ServerMessage) : SessionS :=
  if msg.interrupted then
    { s with
        stopped := s.stopped ++ s.sources
        sources := []
        isAgentSpeaking := false
        nextStartTime := 0 }
  else s

/-- The audio block of `onmessage` (src/types.ts 431–458) followed by
its interruption block: when an audio payload is present and the output
context exists, bump the cursor to `max(cursor, ctx.currentTime)`
(line 434, before the awaited decode) and, if the payload decodes,
schedule it via `enqueueChunk` and handle interruption; a decode
failure throws out of the async handler, so the interruption block of
the same message is skipped and only the cursor bump persists.  Without
an audio payload (or output context) only the interruption block runs. -/
def handleAudio (s1 : SessionS) (now : ℚ) (msg : ServerMessage) : SessionS :=
  match msg.audioData, s1.outputCtx with
  | some payload, some _ =>
      match (decodeBase64 payload).bind
              (fun bytes => decodeAudioData bytes 24000 1) with
      | some samples =>
          applyInterrupted
            (enqueueChunk { s1 with nextStartTime := max s1.nextStartTime now }
              now ((samples.length : ℚ) / 24000)).1 msg
      | none => { s1 with nextStartTime := max s1.nextStartTime now }
  | _, _ => applyInterrupted s1 msg

/-- `onmessage` (src/types.ts 410–469): bail out when unmounted; apply
transcription deltas and turn completion, then the audio and
interruption blocks. -/
def onmessage (s : SessionS) (now : ℚ) (msg : ServerMessage) : SessionS :=
  if s.mounted = false then s
  else handleAudio (applyTranscription s msg) now msg

/-- A source's `onended` callback (src/types.ts 447–452): remove the
handle from the live set; when the set becomes empty the agent is no
longer speaking. -/
def onSourceEnded (s : SessionS) (srcId : Nat) : SessionS :=
  let sources2 := s.sources.erase srcId
  { s with
      sources := sources2
      isAgentSpeaking := if sources2 = [] then false else s.isAgentSpeaking }

/-- The successful acquisition path of `startSession`
(src/types.ts 358–382): status `connecting`, a brand-new microphone
stream, brand-new input and output contexts, and a new `connect` call
stored in `sessionPromiseRef` — all tagged with a fresh generation. -/
def startSession (s : SessionS) : SessionS :=
  let g := s.generation + 1
  { s with
      status := .connecting
      generation := g
      stream := some ⟨g, false⟩
      inputCtx := some ⟨g, false⟩
      outputCtx := some ⟨g, false⟩
      sessionConn := some g }

end ThaiGuide

namespace ThaiGuide

/-- The serialized callback events one component instance can observe.
`startRequest` is a successful `startSession` acquisition;
`startFail` is its catch block (`setStatus('error')`, src/types.ts
489–492); `opened`/`closedEvt`/`erroredEvt` are the channel's lifecycle
callbacks; `message` is a channel message arriving when the output
clock reads `now`; `audioFrame` is a capture callback; `sourceEnded` a
playback handle's natural end; `unmount` runs `cleanup`. -/
inductive Event
  | startRequest
  | startFail
  | opened
  | message (now : ℚ) (msg : ServerMessage)
  | audioFrame (frame : List ℚ)
  | sourceEnded (srcId : Nat)
  | closedEvt
  | erroredEvt
  | unmount
deriving DecidableEq, Repr

/-- One step of the component: dispatch an event to its handler.
`opened`, `closedEvt` and `erroredEvt` update the status only under the
mounted guard, exactly as the source callbacks do (src/types.ts 383–384,
470–476). -/
def step (s : SessionS) : Event → SessionS
  | .startRequest => startSession s
  | .startFail => { s with status := .error }
  | .opened => if s.mounted then { s with status := .connected } else s
  | .message now msg => onmessage s now msg
  | .audioFrame frame => (onaudioprocess s frame).1
  | .sourceEnded srcId => onSourceEnded s srcId
  | .closedEvt => if s.mounted then { s with status := .disconnected } else s
  | .erroredEvt => if s.mounted then { s with status := .error } else s
  | .unmount => cleanup s

/-- Fold a serialized event history over the component state. -/
def runEvents : SessionS → List Event → SessionS
  | s, [] => s
  | s, e :: rest => runEvents (step s e) rest

/-- Ghost phase of the most recent `connect` call, used to state which
event histories the externally supplied channel contract can produce
(§5/§6 of the spec: callbacks serialized, per-connect `opened` fires
once, before that connect's `closed`/`error`; messages only while
open). -/
inductive Phase
  | quiet | pending | live | finished
deriving DecidableEq, Repr

/-- The channel contract as a partial automaton over events: `none`
marks a history the contract cannot produce.  `startFail` is a failure
before `connect` was reached, so it cannot occur while a connect is
pending. -/
def phaseStep : Phase → Event → Option Phase
  | _, .startRequest => some .pending
  | p, .startFail => if p = .pending then none else some p
  | .pending, .opened => some .live
  | .live, .message _ _ => some .live
  | .live, .closedEvt => some .finished
  | .pending, .erroredEvt => some .finished
  | .live, .erroredEvt => some .finished
  | p, .audioFrame _ => some p
  | p, .sourceEnded _ => some p
  | p, .unmount => some p
  | _, _ => none

/-- Run the contract automaton over a history. -/
def phaseRun : Phase → List Event → Option Phase
  | p, [] => some p
  | p, e :: rest => (phaseStep p e).bind (fun p2 => phaseRun p2 rest)

/-- Enqueue a list of (arrival clock time, duration) chunks in order,
collecting the computed start times. -/
def runEnqueues : SessionS → List (ℚ × ℚ) → List ℚ
  | _, [] => []
  | s, (now, dur) :: rest =>
      (enqueueChunk s now dur).2 :: runEnqueues (enqueueChunk s now dur).1 rest

/-- "Each chunk is enqueued before the previously scheduled chunk's
computed end": at every enqueue the cursor is still at or ahead of the
output clock. -/
def ArrivesBeforeEnd : SessionS → List (ℚ × ℚ) → Prop
  | _, [] => True
  | s, (now, dur) :: rest =>
      now ≤ s.nextStartTime ∧ ArrivesBeforeEnd (enqueueChunk s now dur).1 rest

end ThaiGuide

namespace ThaiGuide

/-! ### Field-preservation facts for the handlers -/

/-- `applyTranscription` touches only the three transcript fields. -/
lemma applyTranscription_eq (s : SessionS) (msg : ServerMessage) :
    applyTranscription s msg
      = { s with
          transcription := (applyTranscription s msg).transcription
          currentInputTrans := (applyTranscription s msg).currentInputTrans
          currentOutputTrans := (applyTranscription s msg).currentOutputTrans } := by
  rcases msg with ⟨o, i, tc, a, intr⟩
  cases o <;> cases i <;> cases tc <;> rfl

@[simp] lemma applyTranscription_status (s : SessionS) (msg : ServerMessage) :
    (applyTranscription s msg).status = s.status := by
  rw [applyTranscription_eq]

@[simp] lemma applyTranscription_mounted (s : SessionS) (msg : ServerMessage) :
    (applyTranscription s msg).mounted = s.mounted := by
  rw [applyTranscription_eq]

@[simp] lemma applyTranscription_isAgentSpeaking (s : SessionS)
    (msg : ServerMessage) :
    (applyTranscription s msg).isAgentSpeaking = s.isAgentSpeaking := by
  rw [applyTranscription_eq]

@[simp] lemma applyTranscription_nextStartTime (s : SessionS)
    (msg : ServerMessage) :
    (applyTranscription s msg).nextStartTime = s.nextStartTime := by
  rw [applyTranscription_eq]

@[simp] lemma applyTranscription_sources (s : SessionS) (msg : ServerMessage) :
    (applyTranscription s msg).sources = s.sources := by
  rw [applyTranscription_eq]

@[simp] lemma applyTranscription_stopped (s : SessionS) (msg : ServerMessage) :
    (applyTranscription s msg).stopped = s.stopped := by
  rw [applyTranscription_eq]

@[simp] lemma applyTranscription_nextSourceId (s : SessionS)
    (msg : ServerMessage) :
    (applyTranscription s msg).nextSourceId = s.nextSourceId := by
  rw [applyTranscription_eq]

@[simp] lemma applyTranscription_inputCtx (s : SessionS) (msg : ServerMessage) :
    (applyTranscription s msg).inputCtx = s.inputCtx := by
  rw [applyTranscription_eq]

@[simp] lemma applyTranscription_outputCtx (s : SessionS) (msg : ServerMessage) :
    (applyTranscription s msg).outputCtx = s.outputCtx := by
  rw [applyTranscription_eq]

@[simp] lemma applyTranscription_stream (s : SessionS) (msg : ServerMessage) :
    (applyTranscription s msg).stream = s.stream := by
  rw [applyTranscription_eq]

@[simp] lemma applyTranscription_sessionConn (s : SessionS)
    (msg : ServerMessage) :
    (applyTranscription s msg).sessionConn = s.sessionConn := by
  rw [applyTranscription_eq]

@[simp] lemma applyTranscription_closeRequested (s : SessionS)
    (msg : ServerMessage) :
    (applyTranscription s msg).closeRequested = s.closeRequested := by
  rw [applyTranscription_eq]

@[simp] lemma applyTranscription_generation (s : SessionS)
    (msg : ServerMessage) :
    (applyTranscription s msg).generation = s.generation := by
  rw [applyTranscription_eq]

@[simp] lemma enqueueChunk_start (s : SessionS) (now dur : ℚ) :
    (enqueueChunk s now dur).2 = max s.nextStartTime now := rfl

@[simp] lemma enqueueChunk_nextStartTime (s : SessionS) (now dur : ℚ) :
    (enqueueChunk s now dur).1.nextStartTime
      = max s.nextStartTime now + dur := rfl

@[simp] lemma enqueueChunk_sources (s : SessionS) (now dur : ℚ) :
    (enqueueChunk s now dur).1.sources = s.nextSourceId :: s.sources := rfl

@[simp] lemma enqueueChunk_isAgentSpeaking (s : SessionS) (now dur : ℚ) :
    (enqueueChunk s now dur).1.isAgentSpeaking = true := rfl

@[simp] lemma enqueueChunk_nextSourceId (s : SessionS) (now dur : ℚ) :
    (enqueueChunk s now dur).1.nextSourceId = s.nextSourceId + 1 := rfl

@[simp] lemma enqueueChunk_status (s : SessionS) (now dur : ℚ) :
    (enqueueChunk s now dur).1.status = s.status := rfl

@[simp] lemma enqueueChunk_mounted (s : SessionS) (now dur : ℚ) :
    (enqueueChunk s now dur).1.mounted = s.mounted := rfl

@[simp] lemma enqueueChunk_stopped (s : SessionS) (now dur : ℚ) :
    (enqueueChunk s now dur).1.stopped = s.stopped := rfl

@[simp] lemma enqueueChunk_inputCtx (s : SessionS) (now dur : ℚ) :
    (enqueueChunk s now dur).1.inputCtx = s.inputCtx := rfl

@[simp] lemma enqueueChunk_outputCtx (s : SessionS) (now dur : ℚ) :
    (enqueueChunk s now dur).1.outputCtx = s.outputCtx := rfl

@[simp] lemma enqueueChunk_stream (s : SessionS) (now dur : ℚ) :
    (enqueueChunk s now dur).1.stream = s.stream := rfl

@[simp] lemma enqueueChunk_sessionConn (s : SessionS) (now dur : ℚ) :
    (enqueueChunk s now dur).1.sessionConn = s.sessionConn := rfl

@[simp] lemma enqueueChunk_generation (s : SessionS) (now dur : ℚ) :
    (enqueueChunk s now dur).1.generation = s.generation := rfl

@[simp] lemma applyInterrupted_status (s : SessionS) (msg : ServerMessage) :
    (applyInterrupted s msg).status = s.status := by
  unfold applyInterrupted; split <;> rfl

@[simp] lemma applyInterrupted_mounted (s : SessionS) (msg : ServerMessage) :
    (applyInterrupted s msg).mounted = s.mounted := by
  unfold applyInterrupted; split <;> rfl

@[simp] lemma applyInterrupted_nextSourceId (s : SessionS)
    (msg : ServerMessage) :
    (applyInterrupted s msg).nextSourceId = s.nextSourceId := by
  unfold applyInterrupted; split <;> rfl

@[simp] lemma applyInterrupted_inputCtx (s : SessionS) (msg : ServerMessage) :
    (applyInterrupted s msg).inputCtx = s.inputCtx := by
  unfold applyInterrupted; split <;> rfl

@[simp] lemma applyInterrupted_outputCtx (s : SessionS) (msg : ServerMessage) :
    (applyInterrupted s msg).outputCtx = s.outputCtx := by
  unfold applyInterrupted; split <;> rfl

@[simp] lemma applyInterrupted_stream (s : SessionS) (msg : ServerMessage) :
    (applyInterrupted s msg).stream = s.stream := by
  unfold applyInterrupted; split <;> rfl

@[simp] lemma applyInterrupted_sessionConn (s : SessionS) (msg : ServerMessage) :
    (applyInterrupted s msg).sessionConn = s.sessionConn := by
  unfold applyInterrupted; split <;> rfl

@[simp] lemma applyInterrupted_generation (s : SessionS) (msg : ServerMessage) :
    (applyInterrupted s msg).generation = s.generation := by
  unfold applyInterrupted; split <;> rfl

lemma applyInterrupted_true (s : SessionS) (msg : ServerMessage)
    (h : msg.interrupted = true) :
    applyInterrupted s msg
      = { s with
          stopped := s.stopped ++ s.sources
          sources := []
          isAgentSpeaking := false
          nextStartTime := 0 } := by
  unfold applyInterrupted
  rw [if_pos h]

lemma applyInterrupted_false (s : SessionS) (msg : ServerMessage)
    (h : msg.interrupted = false) :
    applyInterrupted s msg = s := by
  unfold applyInterrupted
  rw [if_neg (by simp [h])]

end ThaiGuide

namespace ThaiGuide

lemma onmessage_unmounted (s : SessionS) (now : ℚ) (msg : ServerMessage)
    (h : s.mounted = false) : onmessage s now msg = s := by
  unfold onmessage
  rw [if_pos h]

@[simp] lemma onmessage_status (s : SessionS) (now : ℚ) (msg : ServerMessage) :
    (onmessage s now msg).status = s.status := by
  unfold onmessage handleAudio
  split
  · rfl
  · split
    · split <;> simp
    · simp

@[simp] lemma onmessage_mounted (s : SessionS) (now : ℚ) (msg : ServerMessage) :
    (onmessage s now msg).mounted = s.mounted := by
  unfold onmessage handleAudio
  split
  · rfl
  · split
    · split <;> simp
    · simp

@[simp] lemma onmessage_inputCtx (s : SessionS) (now : ℚ) (msg : ServerMessage) :
    (onmessage s now msg).inputCtx = s.inputCtx := by
  unfold onmessage handleAudio
  split
  · rfl
  · split
    · split <;> simp
    · simp

@[simp] lemma onmessage_outputCtx (s : SessionS) (now : ℚ) (msg : ServerMessage) :
    (onmessage s now msg).outputCtx = s.outputCtx := by
  unfold onmessage handleAudio
  split
  · rfl
  · split
    · split <;> simp
    · simp

@[simp] lemma onmessage_stream (s : SessionS) (now : ℚ) (msg : ServerMessage) :
    (onmessage s now msg).stream = s.stream := by
  unfold onmessage handleAudio
  split
  · rfl
  · split
    · split <;> simp
    · simp

@[simp] lemma onmessage_sessionConn (s : SessionS) (now : ℚ)
    (msg : ServerMessage) :
    (onmessage s now msg).sessionConn = s.sessionConn := by
  unfold onmessage handleAudio
  split
  · rfl
  · split
    · split <;> simp
    · simp

@[simp] lemma onmessage_generation (s : SessionS) (now : ℚ)
    (msg : ServerMessage) :
    (onmessage s now msg).generation = s.generation := by
  unfold onmessage handleAudio
  split
  · rfl
  · split
    · split <;> simp
    · simp

lemma onaudioprocess_unmounted (s : SessionS) (frame : List ℚ)
    (h : s.mounted = false) : onaudioprocess s frame = (s, none) := by
  unfold onaudioprocess
  rw [if_pos h]

/-- `onaudioprocess` only records the volume metric in the state. -/
lemma onaudioprocess_fst (s : SessionS) (frame : List ℚ) :
    (onaudioprocess s frame).1
      = { s with
          volumeMeanSquare := (onaudioprocess s frame).1.volumeMeanSquare } := by
  unfold onaudioprocess
  split <;> rfl

@[simp] lemma onSourceEnded_status (s : SessionS) (srcId : Nat) :
    (onSourceEnded s srcId).status = s.status := rfl

@[simp] lemma onSourceEnded_mounted (s : SessionS) (srcId : Nat) :
    (onSourceEnded s srcId).mounted = s.mounted := rfl

@[simp] lemma onSourceEnded_inputCtx (s : SessionS) (srcId : Nat) :
    (onSourceEnded s srcId).inputCtx = s.inputCtx := rfl

@[simp] lemma onSourceEnded_outputCtx (s : SessionS) (srcId : Nat) :
    (onSourceEnded s srcId).outputCtx = s.outputCtx := rfl

@[simp] lemma onSourceEnded_stream (s : SessionS) (srcId : Nat) :
    (onSourceEnded s srcId).stream = s.stream := rfl

@[simp] lemma onSourceEnded_sessionConn (s : SessionS) (srcId : Nat) :
    (onSourceEnded s srcId).sessionConn = s.sessionConn := rfl

@[simp] lemma onSourceEnded_generation (s : SessionS) (srcId : Nat) :
    (onSourceEnded s srcId).generation = s.generation := rfl

@[simp] lemma cleanup_status (s : SessionS) : (cleanup s).status = s.status := rfl

@[simp] lemma cleanup_mounted (s : SessionS) : (cleanup s).mounted = false := rfl

@[simp] lemma cleanup_sources (s : SessionS) : (cleanup s).sources = [] := rfl

@[simp] lemma cleanup_generation (s : SessionS) :
    (cleanup s).generation = s.generation := rfl

@[simp] lemma cleanup_sessionConn (s : SessionS) :
    (cleanup s).sessionConn = s.sessionConn := rfl

@[simp] lemma startSession_status (s : SessionS) :
    (startSession s).status = Status.connecting := rfl

@[simp] lemma startSession_generation (s : SessionS) :
    (startSession s).generation = s.generation + 1 := rfl

end ThaiGuide

namespace ThaiGuide

/-- C3: transcript finalization — applying the event sequence
`[InputTranscriptDelta "hel", InputTranscriptDelta "lo",
OutputTranscriptDelta "hi", TurnComplete]` to a fresh instance appends
exactly one turn, formatted as the labeled lines
`"User: hello\n"` and `"Guide: hi\n"`, to the finalized transcript, and
clears both in-progress buffers. -/
theorem transcript_finalization :
    (onmessage
      (onmessage
        (onmessage
          (onmessage initState 0 ⟨none, some "hel", false, none, false⟩)
          0 ⟨none, some "lo", false, none, false⟩)
        0 ⟨some "hi", none, false, none, false⟩)
      0 ⟨none, none, true, none, false⟩).transcription
        = "User: hello\nGuide: hi\n" ∧
    (onmessage
      (onmessage
        (onmessage
          (onmessage initState 0 ⟨none, some "hel", false, none, false⟩)
          0 ⟨none, some "lo", false, none, false⟩)
        0 ⟨some "hi", none, false, none, false⟩)
      0 ⟨none, none, true, none, false⟩).currentInputTrans = "" ∧
    (onmessage
      (onmessage
        (onmessage
          (onmessage initState 0 ⟨none, some "hel", false, none, false⟩)
          0 ⟨none, some "lo", false, none, false⟩)
        0 ⟨some "hi", none, false, none, false⟩)
      0 ⟨none, none, true, none, false⟩).currentOutputTrans = "" := by
  refine ⟨?_, ?_, ?_⟩ <;> rfl

/-- C10: post-teardown quiescence — after `cleanup` the mounted flag is
cleared, and on any unmounted state a capture-frame callback emits
nothing and leaves the state untouched, and a delivered channel message
leaves the state untouched; in particular both handlers are inert on
`cleanup s`. -/
theorem post_teardown_quiescence (s : SessionS) (frame : List ℚ)
    (now : ℚ) (msg : ServerMessage) :
    (cleanup s).mounted = false ∧
    (s.mounted = false →
      onaudioprocess s frame = (s, none) ∧ onmessage s now msg = s) ∧
    onaudioprocess (cleanup s) frame = (cleanup s, none) ∧
    onmessage (cleanup s) now msg = cleanup s := by
  refine ⟨rfl, fun h => ⟨onaudioprocess_unmounted s frame h,
    onmessage_unmounted s now msg h⟩, ?_, ?_⟩
  · exact onaudioprocess_unmounted _ frame rfl
  · exact onmessage_unmounted _ now msg rfl

theorem post_teardown_quiescence_witness :
    onaudioprocess (cleanup initState) [1/2, -1/4]
        = (cleanup initState, none) ∧
    onmessage (cleanup initState) 7 ⟨some "x", none, true, none, true⟩
        = cleanup initState :=
  ⟨(post_teardown_quiescence initState [1/2, -1/4] 7
      ⟨some "x", none, true, none, true⟩).2.2.1,
   (post_teardown_quiescence initState [1/2, -1/4] 7
      ⟨some "x", none, true, none, true⟩).2.2.2⟩

/-- C2: interruption — handling an `Interrupted` server event (an event
whose only active case is the interruption flag) on a mounted instance
stops every handle of the live set, empties the live set, and resets
the cursor to 0, so the next enqueue at any output-clock time
`t ≥ 0` starts exactly at `t` ("now"), never at a pre-interruption
cursor value. -/
theorem interruption_property (s : SessionS) (now : ℚ)
    (msg : ServerMessage) (hm : s.mounted = true)
    (haud : msg.audioData = none) (hint : msg.interrupted = true) :
    (onmessage s now msg).sources = [] ∧
    (∀ x ∈ s.sources, x ∈ (onmessage s now msg).stopped) ∧
    (onmessage s now msg).nextStartTime = 0 ∧
    (∀ t dur : ℚ, 0 ≤ t → (enqueueChunk (onmessage s now msg) t dur).2 = t) := by
  have hred : onmessage s now msg
      = applyInterrupted (applyTranscription s msg) msg := by
    unfold onmessage handleAudio
    rw [if_neg (by simp [hm]), haud]
  rw [hred, applyInterrupted_true _ _ hint]
  refine ⟨rfl, ?_, rfl, ?_⟩
  · intro x hx
    simp only [applyTranscription_stopped, applyTranscription_sources]
    exact List.mem_append_right _ hx
  · intro t dur ht
    simp only [enqueueChunk_start]
    exact max_eq_right ht

theorem interruption_property_witness :
    (onmessage { initState with sources := [0, 1], nextStartTime := 9 } 4
        ⟨none, none, false, none, true⟩).sources = [] ∧
    (0 : Nat) ∈ (onmessage { initState with sources := [0, 1], nextStartTime := 9 } 4
        ⟨none, none, false, none, true⟩).stopped ∧
    (onmessage { initState with sources := [0, 1], nextStartTime := 9 } 4
        ⟨none, none, false, none, true⟩).nextStartTime = 0 ∧
    (enqueueChunk (onmessage { initState with sources := [0, 1], nextStartTime := 9 } 4
        ⟨none, none, false, none, true⟩) 6 2).2 = 6 := by
  obtain ⟨h1, h2, h3, h4⟩ :=
    interruption_property { initState with sources := [0, 1], nextStartTime := 9 }
      4 ⟨none, none, false, none, true⟩ rfl rfl rfl
  exact ⟨h1, h2 0 (by decide), h3, h4 6 2 (by norm_num)⟩

/-- C5: decode-error isolation — on a mounted, connected-or-not
instance with a live output context, a channel message whose audio
payload fails to decode leaves the session state (status, live set,
stopped set, handle counter, speaking flag) unchanged, schedules no
playback, and only bumps the cursor to `max(cursor, now)` — which
leaves every later enqueue's computed start time exactly what it would
have been without the failed chunk, so subsequent handling is
unaffected. -/
theorem decode_error_isolation (s : SessionS) (now : ℚ)
    (msg : ServerMessage) (payload : List Char)
    (hm : s.mounted = true) (haud : msg.audioData = some payload)
    (hctx : s.outputCtx.isSome = true)
    (hfail : (decodeBase64 payload).bind
        (fun bytes => decodeAudioData bytes 24000 1) = none) :
    (onmessage s now msg).status = s.status ∧
    (onmessage s now msg).sources = s.sources ∧
    (onmessage s now msg).stopped = s.stopped ∧
    (onmessage s now msg).nextSourceId = s.nextSourceId ∧
    (onmessage s now msg).isAgentSpeaking = s.isAgentSpeaking ∧
    (onmessage s now msg).nextStartTime = max s.nextStartTime now ∧
    (∀ t dur : ℚ, now ≤ t →
      (enqueueChunk (onmessage s now msg) t dur).2 = max s.nextStartTime t) := by
  obtain ⟨ctx, hc⟩ := Option.isSome_iff_exists.mp hctx
  have hc2 : (applyTranscription s msg).outputCtx = some ctx := by
    simp [hc]
  have hred : onmessage s now msg
      = { applyTranscription s msg with
          nextStartTime := max (applyTranscription s msg).nextStartTime now } := by
    unfold onmessage handleAudio
    rw [if_neg (by simp [hm]), haud, hc2]
    dsimp only
    rw [hfail, hc2]
  rw [hred]
  refine ⟨by simp, by simp, by simp, by simp, by simp, by simp, ?_⟩
  intro t dur ht
  simp only [enqueueChunk_start, applyTranscription_nextStartTime]
  rw [max_assoc, max_eq_right ht]

theorem decode_error_isolation_witness :
    (onmessage { initState with outputCtx := some ⟨1, false⟩, nextStartTime := 2 }
        3 ⟨none, none, false, some ['*'], false⟩).status = Status.idle ∧
    (onmessage { initState with outputCtx := some ⟨1, false⟩, nextStartTime := 2 }
        3 ⟨none, none, false, some ['*'], false⟩).nextStartTime = 3 ∧
    (enqueueChunk
      (onmessage { initState with outputCtx := some ⟨1, false⟩, nextStartTime := 2 }
        3 ⟨none, none, false, some ['*'], false⟩) 5 1).2 = 5 := by
  obtain ⟨h1, _, _, _, _, h6, h7⟩ :=
    decode_error_isolation
      { initState with outputCtx := some ⟨1, false⟩, nextStartTime := 2 } 3
      ⟨none, none, false, some ['*'], false⟩ ['*'] rfl rfl rfl (by decide)
  refine ⟨h1, ?_, ?_⟩
  · rw [h6]; norm_num
  · rw [h7 5 1 (by norm_num)]; norm_num

end ThaiGuide

namespace ThaiGuide

/-- C1: gapless playback — whenever every chunk of a sequence is
enqueued while the cursor is still at or ahead of the output clock,
consecutive computed start times satisfy
`start(n+1) = start(n) + d(n)` exactly: no gap and no overlap. -/
theorem gapless_playback (s : SessionS) (chunks : List (ℚ × ℚ))
    (h : ArrivesBeforeEnd s chunks) :
    ∀ i, i + 1 < chunks.length →
      (runEnqueues s chunks).getD (i + 1) 0
        = (runEnqueues s chunks).getD i 0 + (chunks.getD i (0, 0)).2 := by
  induction chunks generalizing s with
  | nil =>
      intro i hi
      simp at hi
  | cons c rest ih =>
      obtain ⟨now, dur⟩ := c
      obtain ⟨h1, h2⟩ := h
      intro i hi
      cases i with
      | zero =>
          cases rest with
          | nil => simp at hi
          | cons c2 rest2 =>
              obtain ⟨now2, dur2⟩ := c2
              obtain ⟨h21, _⟩ := h2
              show (runEnqueues s ((now, dur) :: (now2, dur2) :: rest2)).getD 1 0
                = (runEnqueues s ((now, dur) :: (now2, dur2) :: rest2)).getD 0 0
                  + dur
              rw [runEnqueues, runEnqueues]
              simp only [List.getD_cons_succ, List.getD_cons_zero,
                enqueueChunk_start]
              rw [max_eq_left (le_trans h21 (le_of_eq rfl))]
              exact (enqueueChunk_nextStartTime s now dur)
      | succ j =>
          have hj : j + 1 < rest.length := by
            simpa using hi
          have := ih (enqueueChunk s now dur).1 h2 j hj
          rw [runEnqueues]
          simpa only [List.getD_cons_succ] using this

theorem gapless_playback_witness :
    ArrivesBeforeEnd { initState with nextStartTime := 10 }
      [((2 : ℚ), (5 : ℚ)), (14, 3), (1, 7)] ∧
    (runEnqueues { initState with nextStartTime := 10 }
        [((2 : ℚ), (5 : ℚ)), (14, 3), (1, 7)]).getD 1 0
      = (runEnqueues { initState with nextStartTime := 10 }
          [((2 : ℚ), (5 : ℚ)), (14, 3), (1, 7)]).getD 0 0
        + (([((2 : ℚ), (5 : ℚ)), (14, 3), (1, 7)]).getD 0 ((0 : ℚ), (0 : ℚ))).2 := by
  have harr : ArrivesBeforeEnd { initState with nextStartTime := 10 }
      [((2 : ℚ), (5 : ℚ)), (14, 3), (1, 7)] := by
    simp only [ArrivesBeforeEnd, enqueueChunk_nextStartTime, and_true]
    norm_num [initState]
  exact ⟨harr, gapless_playback _ _ harr 0 (by norm_num)⟩

lemma closeCtx_idem (o : Option AudioCtx) : closeCtx (closeCtx o) = closeCtx o := by
  cases o <;> rfl

lemma stopTracks_idem (o : Option MediaStream) :
    stopTracks (stopTracks o) = stopTracks o := by
  cases o <;> rfl

/-- C4: teardown idempotence — for every starting state of one
instance, running `cleanup` twice equals running it once; after one
`cleanup` the mounted flag is cleared, the live set is empty, every
previously live handle has been stopped, both processing contexts (when
they were ever created) are closed, the microphone stream (when
acquired) has all tracks stopped, and the channel close has been
requested whenever a session promise exists.  All operations are
guarded in the source (`?.`, try/catch, `.catch`), so neither call
throws — every branch of the embedding is total. -/
theorem teardown_idempotent (s : SessionS) :
    cleanup (cleanup s) = cleanup s ∧
    (cleanup s).mounted = false ∧
    (cleanup s).sources = [] ∧
    (∀ x ∈ s.sources, x ∈ (cleanup s).stopped) ∧
    (∀ c ∈ (cleanup s).inputCtx, c.closed = true) ∧
    (∀ c ∈ (cleanup s).outputCtx, c.closed = true) ∧
    (∀ st ∈ (cleanup s).stream, st.tracksStopped = true) ∧
    (s.sessionConn.isSome = true → (cleanup s).closeRequested = true) := by
  refine ⟨?_, rfl, rfl, ?_, ?_, ?_, ?_, ?_⟩
  · apply SessionS.ext <;>
      simp [cleanup, closeCtx_idem, stopTracks_idem]
  · intro x hx
    exact List.mem_append_right _ hx
  · intro c hc
    rcases hsi : s.inputCtx with _ | c0 <;>
      simp [cleanup, closeCtx, hsi] at hc
    rw [← hc]
  · intro c hc
    rcases hsi : s.outputCtx with _ | c0 <;>
      simp [cleanup, closeCtx, hsi] at hc
    rw [← hc]
  · intro st hst
    rcases hsi : s.stream with _ | st0 <;>
      simp [cleanup, stopTracks, hsi] at hst
    rw [← hst]
  · intro hs
    simp [cleanup, hs]

theorem teardown_idempotent_witness :
    (3 : Nat) ∈ (cleanup { initState with sources := [3], sessionConn := some 1 }).stopped ∧
    (cleanup { initState with sources := [3], sessionConn := some 1 }).closeRequested = true := by
  obtain ⟨_, _, _, h4, _, _, _, h8⟩ :=
    teardown_idempotent { initState with sources := [3], sessionConn := some 1 }
  exact ⟨h4 3 (by decide), h8 rfl⟩

end ThaiGuide

namespace ThaiGuide

/-- C6 (counterexample): the claim says the interruption reset snaps
the cursor back to "now" on the output clock.  On a mounted instance
with cursor 5 handling an `Interrupted` event at output-clock time 3,
the code sets the cursor to 0, not to 3. -/
theorem cursor_reset_counterexample :
    (onmessage { initState with nextStartTime := 5 } 3
        ⟨none, none, false, none, true⟩).nextStartTime = 0 ∧
    ¬ (onmessage { initState with nextStartTime := 5 } 3
        ⟨none, none, false, none, true⟩).nextStartTime = 3 := by
  constructor
  · rfl
  · intro h
    rw [show (onmessage { initState with nextStartTime := 5 } 3
        ⟨none, none, false, none, true⟩).nextStartTime = 0 from rfl] at h
    norm_num at h

/-- C6 (amended): the scheduler's cursor is monotonically
non-decreasing across every operation except the interruption reset:
each enqueue moves it to `max(cursor, now) + duration`, every
non-interrupting message can only move it forward, and the interruption
reset sets it to 0 — after which the subsequent enqueue at any
output-clock time `t ≥ 0` computes start time `t`, re-basing the
schedule to "now". -/
theorem cursor_monotone_except_interrupt (s : SessionS) (now : ℚ)
    (msg : ServerMessage) :
    (∀ dur : ℚ, 0 ≤ dur →
      (enqueueChunk s now dur).1.nextStartTime
          = max s.nextStartTime now + dur ∧
      s.nextStartTime ≤ (enqueueChunk s now dur).1.nextStartTime) ∧
    (msg.interrupted = false →
      s.nextStartTime ≤ (onmessage s now msg).nextStartTime) ∧
    (msg.interrupted = true → msg.audioData = none → s.mounted = true →
      (onmessage s now msg).nextStartTime = 0 ∧
      ∀ t dur : ℚ, 0 ≤ t → (enqueueChunk (onmessage s now msg) t dur).2 = t) := by
  refine ⟨?_, ?_, ?_⟩
  · intro dur hdur
    refine ⟨enqueueChunk_nextStartTime s now dur, ?_⟩
    rw [enqueueChunk_nextStartTime]
    calc s.nextStartTime ≤ max s.nextStartTime now := le_max_left _ _
      _ ≤ max s.nextStartTime now + dur := le_add_of_nonneg_right hdur
  · intro hint
    by_cases hm : s.mounted = false
    · rw [onmessage_unmounted s now msg hm]
    · have hmt : s.mounted = true := by
        cases h : s.mounted
        · exact absurd h hm
        · rfl
      have hred : onmessage s now msg
          = handleAudio (applyTranscription s msg) now msg := by
        unfold onmessage
        rw [if_neg (by simp [hmt])]
      rw [hred]
      have hbase : (applyTranscription s msg).nextStartTime
          = s.nextStartTime := applyTranscription_nextStartTime s msg
      unfold handleAudio
      split
      · split
        · rw [applyInterrupted_false _ _ hint]
          simp only [enqueueChunk_nextStartTime, hbase]
          calc s.nextStartTime
              ≤ max s.nextStartTime now := le_max_left _ _
            _ ≤ max (max s.nextStartTime now) now := le_max_left _ _
            _ ≤ _ := le_add_of_nonneg_right
                  (div_nonneg (Nat.cast_nonneg _) (by norm_num))
        · simp only [hbase]
          exact le_max_left _ _
      · rw [applyInterrupted_false _ _ hint, hbase]
  · intro hint haud hm
    have hred : onmessage s now msg
        = applyInterrupted (applyTranscription s msg) msg := by
      unfold onmessage handleAudio
      rw [if_neg (by simp [hm]), haud]
    rw [hred, applyInterrupted_true _ _ hint]
    refine ⟨rfl, ?_⟩
    intro t dur ht
    simp only [enqueueChunk_start]
    exact max_eq_right ht

theorem cursor_monotone_except_interrupt_witness :
    ((enqueueChunk { initState with nextStartTime := 5 } 3 2).1.nextStartTime
        = 7 ∧
      (5 : ℚ) ≤ (enqueueChunk { initState with nextStartTime := 5 } 3 2).1.nextStartTime) ∧
    ((5 : ℚ) ≤ (onmessage { initState with nextStartTime := 5 } 3
        ⟨none, some "a", false, none, false⟩).nextStartTime) ∧
    ((onmessage { initState with nextStartTime := 5 } 3
        ⟨none, none, false, none, true⟩).nextStartTime = 0 ∧
      (enqueueChunk (onmessage { initState with nextStartTime := 5 } 3
        ⟨none, none, false, none, true⟩) 4 2).2 = 4) := by
  obtain ⟨m1, _, _⟩ :=
    cursor_monotone_except_interrupt { initState with nextStartTime := 5 } 3
      ⟨none, some "a", false, none, false⟩
  obtain ⟨_, m2, _⟩ :=
    cursor_monotone_except_interrupt { initState with nextStartTime := 5 } 3
      ⟨none, some "a", false, none, false⟩
  obtain ⟨_, _, m3⟩ :=
    cursor_monotone_except_interrupt { initState with nextStartTime := 5 } 3
      ⟨none, none, false, none, true⟩
  obtain ⟨w1, w2⟩ := m1 2 (by norm_num)
  obtain ⟨w5, w6⟩ := m3 rfl rfl rfl
  refine ⟨⟨?_, w2⟩, m2 rfl, w5, w6 4 2 (by norm_num)⟩
  rw [w1]
  norm_num

end ThaiGuide

namespace ThaiGuide

@[simp] lemma onaudioprocess_status (s : SessionS) (frame : List ℚ) :
    (onaudioprocess s frame).1.status = s.status := by
  rw [onaudioprocess_fst]

@[simp] lemma onaudioprocess_mounted (s : SessionS) (frame : List ℚ) :
    (onaudioprocess s frame).1.mounted = s.mounted := by
  rw [onaudioprocess_fst]

@[simp] lemma onaudioprocess_generation (s : SessionS) (frame : List ℚ) :
    (onaudioprocess s frame).1.generation = s.generation := by
  rw [onaudioprocess_fst]

@[simp] lemma onaudioprocess_stream (s : SessionS) (frame : List ℚ) :
    (onaudioprocess s frame).1.stream = s.stream := by
  rw [onaudioprocess_fst]

@[simp] lemma onaudioprocess_inputCtx (s : SessionS) (frame : List ℚ) :
    (onaudioprocess s frame).1.inputCtx = s.inputCtx := by
  rw [onaudioprocess_fst]

@[simp] lemma onaudioprocess_outputCtx (s : SessionS) (frame : List ℚ) :
    (onaudioprocess s frame).1.outputCtx = s.outputCtx := by
  rw [onaudioprocess_fst]

@[simp] lemma onaudioprocess_sessionConn (s : SessionS) (frame : List ℚ) :
    (onaudioprocess s frame).1.sessionConn = s.sessionConn := by
  rw [onaudioprocess_fst]

@[simp] lemma cleanup_inputCtx (s : SessionS) :
    (cleanup s).inputCtx = closeCtx s.inputCtx := rfl

@[simp] lemma cleanup_outputCtx (s : SessionS) :
    (cleanup s).outputCtx = closeCtx s.outputCtx := rfl

@[simp] lemma cleanup_stream (s : SessionS) :
    (cleanup s).stream = stopTracks s.stream := rfl

lemma runEvents_append (s : SessionS) (xs ys : List Event) :
    runEvents s (xs ++ ys) = runEvents (runEvents s xs) ys := by
  induction xs generalizing s with
  | nil => rfl
  | cons e rest ih => exact ih (step s e)

lemma phaseRun_append (p : Phase) (xs ys : List Event) :
    phaseRun p (xs ++ ys) = (phaseRun p xs).bind (fun p2 => phaseRun p2 ys) := by
  induction xs generalizing p with
  | nil => rfl
  | cons e rest ih =>
      rw [List.cons_append, phaseRun, phaseRun]
      rcases h : phaseStep p e with _ | p2
      · rfl
      · simp only [Option.some_bind]
        exact ih p2

/-- While a connect is pending, the status reads `connecting` unless the
component has already unmounted. -/
def Inv (p : Phase) (s : SessionS) : Prop :=
  p = Phase.pending → (s.status = Status.connecting ∨ s.mounted = false)

lemma inv_preserved {p p2 : Phase} {e : Event} {s : SessionS}
    (hp : phaseStep p e = some p2) (hinv : Inv p s) : Inv p2 (step s e) := by
  cases e with
  | startRequest =>
      simp [phaseStep] at hp
      subst hp
      intro _
      left
      exact startSession_status s
  | startFail =>
      by_cases hpp : p = Phase.pending
      · simp [phaseStep, hpp] at hp
      · simp [phaseStep, hpp] at hp
        subst hp
        intro h2
        exact absurd h2 hpp
  | opened =>
      intro h2
      cases p <;> simp [phaseStep] at hp <;> subst hp <;> exact absurd h2 (by decide)
  | message now msg =>
      intro h2
      cases p <;> simp [phaseStep] at hp <;> subst hp <;> exact absurd h2 (by decide)
  | audioFrame frame =>
      intro h2
      cases p <;> simp [phaseStep] at hp <;> subst hp <;>
        first
          | exact absurd h2 (by decide)
          | (rcases hinv rfl with h | h
             · left; simpa [step] using h
             · right; simpa [step] using h)
  | sourceEnded srcId =>
      intro h2
      cases p <;> simp [phaseStep] at hp <;> subst hp <;>
        first
          | exact absurd h2 (by decide)
          | (rcases hinv rfl with h | h
             · left; simpa [step] using h
             · right; simpa [step] using h)
  | closedEvt =>
      intro h2
      cases p <;> simp [phaseStep] at hp <;> subst hp <;> exact absurd h2 (by decide)
  | erroredEvt =>
      intro h2
      cases p <;> simp [phaseStep] at hp <;> subst hp <;> exact absurd h2 (by decide)
  | unmount =>
      intro h2
      cases p <;> simp [phaseStep] at hp <;> subst hp <;>
        first
          | exact absurd h2 (by decide)
          | (right; simp [step])

end ThaiGuide

namespace ThaiGuide

lemma inv_run {p p2 : Phase} {s : SessionS} {evs : List Event}
    (hrun : phaseRun p evs = some p2) (hinv : Inv p s) :
    Inv p2 (runEvents s evs) := by
  induction evs generalizing p s with
  | nil =>
      simp [phaseRun] at hrun
      subst hrun
      exact hinv
  | cons e rest ih =>
      rw [phaseRun] at hrun
      rcases hps : phaseStep p e with _ | pmid <;> rw [hps] at hrun
      · simp at hrun
      · simp only [Option.some_bind] at hrun
        exact ih hrun (inv_preserved hps hinv)

lemma down_stays {p p2 : Phase} {s : SessionS} {evs : List Event}
    (hrun : phaseRun p evs = some p2) (hinv : Inv p s)
    (hdown : s.status = Status.disconnected ∨ s.status = Status.error)
    (hns : Event.startRequest ∉ evs) :
    (runEvents s evs).status = Status.disconnected ∨
      (runEvents s evs).status = Status.error := by
  induction evs generalizing p s with
  | nil => exact hdown
  | cons e rest ih =>
      rw [phaseRun] at hrun
      rcases hps : phaseStep p e with _ | pmid <;> rw [hps] at hrun
      · simp at hrun
      · simp only [Option.some_bind] at hrun
        have hinv2 := inv_preserved hps hinv
        have hne : e ≠ Event.startRequest := fun h => hns (by simp [h])
        have hns2 : Event.startRequest ∉ rest := fun h => hns (by simp [h])
        have hdown2 : (step s e).status = Status.disconnected ∨
            (step s e).status = Status.error := by
          cases e with
          | startRequest => exact absurd rfl hne
          | startFail => right; rfl
          | opened =>
              have hppend : p = Phase.pending := by
                cases p <;> simp [phaseStep] at hps <;> rfl
              rcases hinv hppend with hcon | hm
              · rcases hdown with h | h <;> rw [hcon] at h <;>
                  exact absurd h (by decide)
              · have : step s Event.opened = s := by
                  simp [step, hm]
                rw [this]
                exact hdown
          | message now msg => simpa [step] using hdown
          | audioFrame frame => simpa [step] using hdown
          | sourceEnded srcId => simpa [step] using hdown
          | closedEvt =>
              by_cases hm : s.mounted = true
              · left; simp [step, hm]
              · have hmf : s.mounted = false := by
                  cases h : s.mounted
                  · rfl
                  · exact absurd h hm
                have : step s Event.closedEvt = s := by simp [step, hmf]
                rw [this]; exact hdown
          | erroredEvt =>
              by_cases hm : s.mounted = true
              · right; simp [step, hm]
              · have hmf : s.mounted = false := by
                  cases h : s.mounted
                  · rfl
                  · exact absurd h hm
                have : step s Event.erroredEvt = s := by simp [step, hmf]
                rw [this]; exact hdown
          | unmount => simpa [step] using hdown
        exact ih hrun hinv2 hdown2 hns2

lemma step_generation_mono (s : SessionS) (e : Event) :
    s.generation ≤ (step s e).generation := by
  cases e with
  | startRequest => simp [step]
  | startFail => exact le_refl _
  | opened => simp [step]; split <;> simp
  | message now msg => simp [step]
  | audioFrame frame => simp [step]
  | sourceEnded srcId => simp [step]
  | closedEvt => simp [step]; split <;> simp
  | erroredEvt => simp [step]; split <;> simp
  | unmount => simp [step]

/-- All the instance's resources — and its generation counter — are
strictly newer than generation `k`: the stream, both contexts, and the
session handle are brand-new relative to anything that existed at
generation `k`. -/
def ResFresh (k : Nat) (s : SessionS) : Prop :=
  k < s.generation ∧
  (∀ st ∈ s.stream, k < st.gen) ∧
  (∀ c ∈ s.inputCtx, k < c.gen) ∧
  (∀ c ∈ s.outputCtx, k < c.gen) ∧
  (∀ g ∈ s.sessionConn, k < g)

lemma resFresh_mono {k k2 : Nat} {s : SessionS} (hk : k2 ≤ k)
    (h : ResFresh k s) : ResFresh k2 s := by
  obtain ⟨h1, h2, h3, h4, h5⟩ := h
  exact ⟨lt_of_le_of_lt hk h1,
    fun st hst => lt_of_le_of_lt hk (h2 st hst),
    fun c hc => lt_of_le_of_lt hk (h3 c hc),
    fun c hc => lt_of_le_of_lt hk (h4 c hc),
    fun g hg => lt_of_le_of_lt hk (h5 g hg)⟩

lemma resFresh_step {k : Nat} {s : SessionS} (e : Event)
    (h : ResFresh k s) : ResFresh k (step s e) := by
  obtain ⟨h1, h2, h3, h4, h5⟩ := h
  cases e with
  | startRequest =>
      refine ⟨?_, ?_, ?_, ?_, ?_⟩ <;> simp [step, startSession] <;> omega
  | startFail => exact ⟨h1, h2, h3, h4, h5⟩
  | opened =>
      show ResFresh k (if s.mounted then { s with status := .connected } else s)
      split
      · exact ⟨h1, h2, h3, h4, h5⟩
      · exact ⟨h1, h2, h3, h4, h5⟩
  | message now msg =>
      refine ⟨?_, ?_, ?_, ?_, ?_⟩ <;> simp [step] <;> assumption
  | audioFrame frame =>
      refine ⟨?_, ?_, ?_, ?_, ?_⟩ <;> simp [step] <;> assumption
  | sourceEnded srcId =>
      refine ⟨?_, ?_, ?_, ?_, ?_⟩ <;> simp [step] <;> assumption
  | closedEvt =>
      show ResFresh k (if s.mounted then { s with status := .disconnected } else s)
      split
      · exact ⟨h1, h2, h3, h4, h5⟩
      · exact ⟨h1, h2, h3, h4, h5⟩
  | erroredEvt =>
      show ResFresh k (if s.mounted then { s with status := .error } else s)
      split
      · exact ⟨h1, h2, h3, h4, h5⟩
      · exact ⟨h1, h2, h3, h4, h5⟩
  | unmount =>
      refine ⟨h1, ?_, ?_, ?_, h5⟩
      · intro st hst
        rcases hsi : s.stream with _ | st0 <;>
          simp [step, cleanup, stopTracks, hsi] at hst
        rw [← hst]
        exact h2 st0 (by simp [hsi])
      · intro c hc
        rcases hsi : s.inputCtx with _ | c0 <;>
          simp [step, cleanup, closeCtx, hsi] at hc
        rw [← hc]
        exact h3 c0 (by simp [hsi])
      · intro c hc
        rcases hsi : s.outputCtx with _ | c0 <;>
          simp [step, cleanup, closeCtx, hsi] at hc
        rw [← hc]
        exact h4 c0 (by simp [hsi])

lemma resFresh_run {k : Nat} {s : SessionS} (evs : List Event)
    (h : ResFresh k s) : ResFresh k (runEvents s evs) := by
  induction evs generalizing s with
  | nil => exact h
  | cons e rest ih => exact ih (resFresh_step e h)

lemma start_gives_fresh {s : SessionS} {evs : List Event}
    (hmem : Event.startRequest ∈ evs) :
    ResFresh s.generation (runEvents s evs) := by
  induction evs generalizing s with
  | nil => cases hmem
  | cons e rest ih =>
      by_cases he : e = Event.startRequest
      · subst he
        have hstep : ResFresh s.generation (step s Event.startRequest) := by
          refine ⟨?_, ?_, ?_, ?_, ?_⟩ <;> simp [step, startSession] <;> omega
        show ResFresh s.generation (runEvents (step s Event.startRequest) rest)
        exact resFresh_run rest hstep
      · have hmem2 : Event.startRequest ∈ rest := by
          rcases List.mem_cons.mp hmem with h | h
          · exact absurd h.symm he
          · exact h
        exact resFresh_mono (step_generation_mono s e) (ih hmem2)

end ThaiGuide

namespace ThaiGuide

/-- C7: terminal session states — along every event history the
channel contract can produce, once one controller instance reads
`disconnected` or `error`, it can only read `connected` again if a new
`startSession` ran in between, and that start leaves the instance with
a strictly larger generation and a microphone stream, processing
contexts, and channel handle all brand-new (strictly newer than
anything held at the terminal point). -/
theorem terminal_states_require_fresh_session (pre post : List Event)
    (hvalid : (phaseRun Phase.quiet (pre ++ post)).isSome = true)
    (hdown : (runEvents initState pre).status = Status.disconnected ∨
             (runEvents initState pre).status = Status.error)
    (hconn : (runEvents initState (pre ++ post)).status = Status.connected) :
    Event.startRequest ∈ post ∧
    ResFresh (runEvents initState pre).generation
      (runEvents initState (pre ++ post)) := by
  rw [runEvents_append] at hconn
  obtain ⟨pend, hpend⟩ := Option.isSome_iff_exists.mp hvalid
  rw [phaseRun_append] at hpend
  rcases hpre : phaseRun Phase.quiet pre with _ | p1 <;> rw [hpre] at hpend
  · simp at hpend
  · simp only [Option.some_bind] at hpend
    have hinv0 : Inv Phase.quiet initState := by
      intro h
      exact absurd h (by decide)
    have hinv : Inv p1 (runEvents initState pre) := inv_run hpre hinv0
    have hmem : Event.startRequest ∈ post := by
      by_contra hns
      rcases down_stays hpend hinv hdown hns with h | h <;>
        rw [hconn] at h <;> exact absurd h (by decide)
    refine ⟨hmem, ?_⟩
    rw [runEvents_append]
    exact start_gives_fresh hmem

theorem terminal_states_require_fresh_session_witness :
    Event.startRequest ∈ [Event.startRequest, Event.opened] ∧
    ResFresh
      (runEvents initState
        [Event.startRequest, Event.opened, Event.closedEvt]).generation
      (runEvents initState
        ([Event.startRequest, Event.opened, Event.closedEvt]
          ++ [Event.startRequest, Event.opened])) :=
  terminal_states_require_fresh_session
    [Event.startRequest, Event.opened, Event.closedEvt]
    [Event.startRequest, Event.opened]
    rfl (Or.inl rfl) rfl

end ThaiGuide
